import Mathlib

/-
Verification development for the tile-grid navigation engine
(src/columnlist.rs, src/rowlist.rs, src/posteritem.rs, src/texture_manager.rs).

Shallow embedding conventions:
* `f32` values are modelled as exact rationals `ℚ`; the constants (0.1, 0.15,
  0.5, 0.01, 0.001, 1.2, 320, 480, ...) are taken at their exact decimal value.
* `usize` is modelled as `Nat`; where the source can underflow
  (`len() - 1` on an empty `Vec`, release-mode wrap-around), the wrapping
  predecessor is made explicit via `usizePred` (`% 2^64`).
* WebGL side effects are modelled by their observable content: a tile's vertex
  buffer is `Option (List ℚ)` holding the last uploaded vertex data, a texture
  is an `Option Nat` handle identifying the shared record allocated by the
  texture manager, and the shared `HtmlImageElement` is observed through its
  natural size `Option (ℚ × ℚ)` ((0,0) until the asynchronous load completes).
* Fallible graphics allocation is modelled by `Bool` capability flags
  (`canCreateBuffer`, `canCreateTexture`) and `Except String` results.
-/

set_option maxHeartbeats 4000000

set_option maxRecDepth 1000000

attribute [local semireducible] Rat.mul Rat.add Rat.sub Rat.inv Rat.ofScientific

/-- Wrapping predecessor of a `usize`: models release-mode `n - 1` in Rust,
which wraps to `2^64 - 1` when `n = 0` (src/rowlist.rs:66, src/columnlist.rs:80). -/
def usizePred (n : Nat) : Nat := (n + (2 ^ 64 - 1)) % 2 ^ 64

/-- In-place update of one vector element (`vec[i] = ...` / `get_mut`):
no-op when the index is out of range. -/
def modifyIdx (f : α → α) : Nat → List α → List α
  | _, [] => []
  | 0, a :: t => f a :: t
  | i + 1, a :: t => a :: modifyIdx f i t

/-- The `iter_mut().enumerate()` loop: map with the running index. -/
def mapIdxFrom (f : Nat → α → β) : Nat → List α → List β
  | _, [] => []
  | i, a :: t => f i a :: mapIdxFrom f (i + 1) t

/-- Repeated application of a function (a run of frame ticks). -/
def iterate (f : α → α) : Nat → α → α
  | 0, a => a
  | n + 1, a => iterate f n (f a)

/-- Rust struct `PosterItem` (src/posteritem.rs:6-31). The GPU-side vertex buffer is
modelled by its content (the last uploaded vertex list); the shared texture by
its record id; the shared image element by its observable natural size. -/
structure PosterItem where
  x : ℚ
  y : ℚ
  w : ℚ
  h : ℚ
  src : String
  resize_contain : Bool
  is_selected : Bool
  anim_scale : ℚ
  offset_x : ℚ
  offset_y : ℚ
  prev_is_selected : Bool
  prev_offset_x : ℚ
  prev_offset_y : ℚ
  texture : Option Nat
  image_element : Option (ℚ × ℚ)
  buffer : Option (List ℚ)
deriving DecidableEq, Repr

/-- Embeds `PosterItem::new` (src/posteritem.rs:34-53). -/
def PosterItem.new (x y w h : ℚ) (src : String) (resize_contain : Bool) : PosterItem :=
  { x := x, y := y, w := w, h := h
    src := src
    resize_contain := resize_contain
    is_selected := false
    anim_scale := 1
    offset_x := 0
    offset_y := 0
    prev_offset_x := 0
    prev_offset_y := 0
    prev_is_selected := false
    texture := none
    image_element := none
    buffer := none }

/-- Embeds `PosterItem::create_rect` (src/posteritem.rs:133-157): the six-vertex quad,
scaled around the rectangle centre by `anim_scale` and translated by the two
scroll offsets, interleaved as (position.x, position.y, u, v). -/
def PosterItem.create_rect (it : PosterItem) : List ℚ :=
  let scale := it.anim_scale
  let center_x := it.x + it.w / 2
  let center_y := it.y + it.h / 2
  let new_w := it.w * scale
  let new_h := it.h * scale
  let final_center_x := center_x + it.offset_x
  let final_center_y := center_y + it.offset_y
  let x := final_center_x - new_w / 2
  let y := final_center_y - new_h / 2
  let x2 := x + new_w
  let y2 := y + new_h
  [x, y, 0, 0,
   x, y2, 0, 1,
   x2, y, 1, 0,
   x2, y, 1, 0,
   x, y2, 0, 1,
   x2, y2, 1, 1]

/-- Embeds `PosterItem::init_buffer` (src/posteritem.rs:56-66): allocates the vertex
buffer and uploads the current quad; fails when the context cannot allocate. -/
def PosterItem.init_buffer (it : PosterItem) (canCreateBuffer : Bool) :
    Except String PosterItem :=
  if canCreateBuffer then Except.ok { it with buffer := some it.create_rect }
  else Except.error ("Failed to create buffer")

/-- Embeds `PosterItem::set_texture` (src/posteritem.rs:69-72): stores the shared
texture handle and shared image element (observed by its natural size). -/
def PosterItem.set_texture (it : PosterItem) (texture : Nat) (image : ℚ × ℚ) :
    PosterItem :=
  { it with texture := some texture, image_element := some image }

/-- Phase A of `PosterItem::update` (src/posteritem.rs:78-92): aspect-fit
resize. Returns the updated item and whether this phase marked `needs_upload`. -/
def PosterItem.resizeStep (it : PosterItem) : PosterItem × Bool :=
  if it.resize_contain then
    match it.image_element with
    | some (img_w, img_h) =>
      if img_w > 0 ∧ img_h > 0 then
        if |it.h - it.w * (img_h / img_w)| > 1 / 100 then
          ({ it with h := it.w * (img_h / img_w), resize_contain := false }, true)
        else (it, false)
      else (it, false)
    | none => (it, false)
  else (it, false)

/-- Phase B of `PosterItem::update` (src/posteritem.rs:95-103): dirty-check of
the two scroll offsets against their previously recorded values. -/
def PosterItem.offsetStep (it : PosterItem) : PosterItem × Bool :=
  let px := if |it.offset_x - it.prev_offset_x| > 1 / 10 then
    ({ it with prev_offset_x := it.offset_x }, true) else (it, false)
  let py := if |px.1.offset_y - px.1.prev_offset_y| > 1 / 10 then
    ({ px.1 with prev_offset_y := px.1.offset_y }, true) else (px.1, false)
  (py.1, px.2 || py.2)

/-- Phase C of `PosterItem::update` (src/posteritem.rs:105-117): selection
scale animation with exact snap once within 0.001 of the target. -/
def PosterItem.animStep (it : PosterItem) : PosterItem × Bool :=
  let target_scale : ℚ := if it.is_selected then 6 / 5 else 1
  let diff := target_scale - it.anim_scale
  if |diff| > 1 / 1000 then
    ({ it with anim_scale := it.anim_scale + diff * (3 / 20) }, true)
  else if it.anim_scale ≠ target_scale then
    ({ it with anim_scale := target_scale }, true)
  else (it, false)

/-- Embeds `PosterItem::update` (src/posteritem.rs:75-130): phases A-C, then phase D
re-uploads the quad to the buffer (when present) only if anything marked
`needs_upload`. -/
def PosterItem.update (it : PosterItem) : PosterItem :=
  let r1 := it.resizeStep
  let r2 := r1.1.offsetStep
  let r3 := r2.1.animStep
  if r1.2 || r2.2 || r3.2 then
    match r3.1.buffer with
    | some _ => { r3.1 with buffer := some r3.1.create_rect }
    | none => r3.1
  else r3.1

/-- Models `SharedTexture` record identity: `Rc::clone` of both handles shares the
pointee, so a record is identified by the id allocated at creation. -/
structure TextureManager where
  cache : List (String × Nat)
  nextId : Nat
  loads : List String
deriving DecidableEq, Repr

/-- Embeds `TextureManager::new` (src/texture_manager.rs:18-22). -/
def TextureManager.new : TextureManager :=
  { cache := [], nextId := 0, loads := [] }

/-- Association-list lookup, modelling `HashMap::get` keyed by the source URL. -/
def lookupKey (k : String) : List (String × Nat) → Option Nat
  | [] => none
  | (a, v) :: t => if k = a then some v else lookupKey k t

/-- Embeds `TextureManager::get_texture` (src/texture_manager.rs:24-110): a cache hit
returns a clone of the stored record (same pointee id, no new load); a miss
allocates a texture (fallible), creates the image element, registers the
asynchronous load (`set_src`, recorded in `loads`) and caches the record. -/
def TextureManager.get_texture (tm : TextureManager) (canCreateTexture : Bool)
    (src : String) : Except String (Nat × TextureManager) :=
  match lookupKey src tm.cache with
  | some id => Except.ok (id, tm)
  | none =>
    if canCreateTexture then
      let id := tm.nextId
      Except.ok (id,
        { cache := (src, id) :: tm.cache, nextId := id + 1, loads := src :: tm.loads })
    else Except.error ("failed to create texture")

/-- Rust struct `RowList` (src/rowlist.rs:6-17). -/
structure RowList where
  items : List PosterItem
  selected_index : Nat
  is_active : Bool
  scroll_x : ℚ
  target_scroll_x : ℚ
  offset_y : ℚ
deriving DecidableEq, Repr

def srcEven : String :=
  "https://m.media-amazon.com/images/M/MV5BNGI0MDI4NjEtOWU3ZS00ODQyLWFhYTgtNGYxM2ZkM2Q2YjE3XkEyXkFqcGc@._V1_.jpg"

def srcOdd : String :=
  "https://m.media-amazon.com/images/M/MV5BNDE0MGFkYzktYTMyNS00Mjk1LWI3YzEtYWYxMzAxNTI2YmUyXkEyXkFqcGc@._V1_QL75_UX480_.jpg"

/-- Embeds `RowList::new` (src/rowlist.rs:20-49): ten 300x200 tiles 320 apart,
alternating between the two poster sources, all with `resize_contain`. -/
def RowList.new (y_start : ℚ) : RowList :=
  let items := (List.range 10).map (fun (i : Nat) =>
    PosterItem.new (50 + (i : ℚ) * 320) y_start 300 200
      (if i % 2 == 0 then srcEven else srcOdd) true)
  { items := items, selected_index := 0, is_active := false
    scroll_x := 0, target_scroll_x := 0, offset_y := 0 }

/-- Recompute of `target_scroll_x` after input (src/rowlist.rs:73-85). -/
def RowList.retargetX (r : RowList) : RowList :=
  { r with target_scroll_x :=
      if r.selected_index > 4 then -(((r.selected_index - 4 : Nat) : ℚ) * 320) else 0 }

/-- Embeds `RowList::handle_input` (src/rowlist.rs:52-86): gated on `is_active`;
Left (37) decrements, Right (39) increments bounded by `items.len() - 1`
(wrapping on an empty vector), then the scroll target is recomputed. -/
def RowList.handle_input (r : RowList) (key_code : Nat) : RowList :=
  if !r.is_active then r
  else
    let sel :=
      if key_code = 37 then
        (if r.selected_index > 0 then r.selected_index - 1 else r.selected_index)
      else if key_code = 39 then
        (if r.selected_index < usizePred r.items.length then r.selected_index + 1
         else r.selected_index)
      else r.selected_index
    RowList.retargetX { r with selected_index := sel }

/-- Item loading loop of `RowList::load_assets` (src/rowlist.rs:89-102):
`init_buffer` failure is logged and swallowed (`unwrap_or_else`), while a
`get_texture` failure propagates with `?`. A fresh shared image element
reports natural size 0x0 until its asynchronous load completes. -/
def loadItems (canCreateBuffer canCreateTexture : Bool) :
    List PosterItem → TextureManager → Except String (List PosterItem × TextureManager)
  | [], tm => Except.ok ([], tm)
  | it :: rest, tm =>
    let it1 := match it.init_buffer canCreateBuffer with
      | Except.ok x => x
      | Except.error _ => it
    match tm.get_texture canCreateTexture it1.src with
    | Except.error e => Except.error e
    | Except.ok (id, tm1) =>
      let it2 := it1.set_texture id (0, 0)
      match loadItems canCreateBuffer canCreateTexture rest tm1 with
      | Except.error e => Except.error e
      | Except.ok (rest2, tm2) => Except.ok (it2 :: rest2, tm2)

/-- Embeds `RowList::load_assets` (src/rowlist.rs:89-102). -/
def RowList.load_assets (r : RowList) (canCreateBuffer canCreateTexture : Bool)
    (tm : TextureManager) : Except String (RowList × TextureManager) :=
  match loadItems canCreateBuffer canCreateTexture r.items tm with
  | Except.error e => Except.error e
  | Except.ok (items, tm1) => Except.ok ({ r with items := items }, tm1)

/-- Embeds `RowList::update` (src/rowlist.rs:105-131): lerp `scroll_x` toward the
target (snap when within 0.5), then push selection flag and both offsets into
every item and tick it. -/
def RowList.update (r : RowList) : RowList :=
  let diff := r.target_scroll_x - r.scroll_x
  let scroll_x := if |diff| > 1 / 2 then r.scroll_x + diff * (1 / 10) else r.target_scroll_x
  let items := mapIdxFrom (fun i it =>
    PosterItem.update
      { it with is_selected := r.is_active && (i == r.selected_index),
                offset_x := scroll_x, offset_y := r.offset_y }) 0 r.items
  { r with scroll_x := scroll_x, items := items }

/-- Rust struct `ColumnList` (src/columnlist.rs:6-13). -/
structure ColumnList where
  rows : List RowList
  selected_row_index : Nat
  scroll_y : ℚ
  target_scroll_y : ℚ
deriving DecidableEq, Repr

/-- Embeds `ColumnList::new` (src/columnlist.rs:16-47): twenty rows 480 apart starting
at y = 50; the first row is activated. -/
def ColumnList.new : ColumnList :=
  let rows := (List.range 20).map (fun (i : Nat) => RowList.new (50 + (i : ℚ) * 480))
  { rows := modifyIdx (fun r => { r with is_active := true }) 0 rows
    selected_row_index := 0, scroll_y := 0, target_scroll_y := 0 }

/-- Recompute of `target_scroll_y` after input (src/columnlist.rs:100-112). -/
def ColumnList.retargetY (c : ColumnList) : ColumnList :=
  { c with target_scroll_y :=
      if c.selected_row_index > 1 then
        -(((c.selected_row_index - 1 : Nat) : ℚ) * 480) else 0 }

/-- Embeds `ColumnList::handle_input` (src/columnlist.rs:63-113): Up (38) / Down (40)
move the active row (deactivate old, activate new) bounded by
`rows.len() - 1`; Left/Right (37/39) delegate to the active row; then the
vertical scroll target is recomputed from the new index. -/
def ColumnList.handle_input (c : ColumnList) (key_code : Nat) : ColumnList :=
  ColumnList.retargetY <|
    if key_code = 38 then
      (if c.selected_row_index > 0 then
        { c with
          rows := modifyIdx (fun r => { r with is_active := true })
            (c.selected_row_index - 1)
            (modifyIdx (fun r => { r with is_active := false })
              c.selected_row_index c.rows),
          selected_row_index := c.selected_row_index - 1 }
      else c)
    else if key_code = 40 then
      (if c.selected_row_index < usizePred c.rows.length then
        { c with
          rows := modifyIdx (fun r => { r with is_active := true })
            (c.selected_row_index + 1)
            (modifyIdx (fun r => { r with is_active := false })
              c.selected_row_index c.rows),
          selected_row_index := c.selected_row_index + 1 }
      else c)
    else if key_code = 37 ∨ key_code = 39 then
      { c with rows := (modifyIdx (fun r => r.handle_input key_code) c.selected_row_index c.rows) }
    else c

/-- Embeds `ColumnList::load_assets` (src/columnlist.rs:50-60): loads every row,
propagating failures with `?`. -/
def loadRows (canCreateBuffer canCreateTexture : Bool) :
    List RowList → TextureManager → Except String (List RowList × TextureManager)
  | [], tm => Except.ok ([], tm)
  | r :: rest, tm =>
    match r.load_assets canCreateBuffer canCreateTexture tm with
    | Except.error e => Except.error e
    | Except.ok (r1, tm1) =>
      match loadRows canCreateBuffer canCreateTexture rest tm1 with
      | Except.error e => Except.error e
      | Except.ok (rest1, tm2) => Except.ok (r1 :: rest1, tm2)

/-- Embeds `ColumnList::load_assets` (src/columnlist.rs:50-60). -/
def ColumnList.load_assets (c : ColumnList) (canCreateBuffer canCreateTexture : Bool)
    (tm : TextureManager) : Except String (ColumnList × TextureManager) :=
  match loadRows canCreateBuffer canCreateTexture c.rows tm with
  | Except.error e => Except.error e
  | Except.ok (rows, tm1) => Except.ok ({ c with rows := rows }, tm1)

/-- Embeds `ColumnList::update` (src/columnlist.rs:116-130): lerp `scroll_y` toward
the target (snap when within 0.5), then push it as every row's `offset_y` and
tick each row. -/
def ColumnList.update (c : ColumnList) : ColumnList :=
  let diff := c.target_scroll_y - c.scroll_y
  let scroll_y := if |diff| > 1 / 2 then c.scroll_y + diff * (1 / 10) else c.target_scroll_y
  { c with
      scroll_y := scroll_y
      rows := c.rows.map (fun r => RowList.update { r with offset_y := scroll_y }) }

/-- Discrete event fed to the grid: a key press or a frame tick. -/
inductive GridStep where
  | key (code : Nat)
  | tick
deriving DecidableEq, Repr

/-- Run a sequence of key presses and ticks on the grid. -/
def runSteps (c : ColumnList) : List GridStep → ColumnList
  | [] => c
  | GridStep.key k :: rest => runSteps (c.handle_input k) rest
  | GridStep.tick :: rest => runSteps c.update rest

/-- States reachable from construction by navigation inputs and frame ticks. -/
inductive Reachable : ColumnList → Prop where
  | init : Reachable ColumnList.new
  | input : ∀ {c : ColumnList} (k : Nat), Reachable c → Reachable (c.handle_input k)
  | tick : ∀ {c : ColumnList}, Reachable c → Reachable c.update

/-- The grid as the engine starts rendering it: constructed and with assets
loaded (all allocations succeeding, no image decoded yet). -/
def loadedGrid : ColumnList :=
  match ColumnList.new.load_assets true true TextureManager.new with
  | Except.ok (c, _) => c
  | Except.error _ => ColumnList.new

/-! ### Generic list lemmas for the indexed mutation helpers -/

theorem modifyIdx_length (f : α → α) : ∀ (i : Nat) (l : List α),
    (modifyIdx f i l).length = l.length := by
  intro i l
  induction l generalizing i with
  | nil => cases i <;> rfl
  | cons a t ih => cases i with
    | zero => rfl
    | succ i2 => simpa [modifyIdx] using ih i2

theorem modifyIdx_getElem? (f : α → α) : ∀ (i : Nat) (l : List α) (j : Nat),
    (modifyIdx f i l)[j]? = if i = j then (l[j]?).map f else l[j]? := by
  intro i l
  induction l generalizing i with
  | nil => intro j; simp [modifyIdx]
  | cons a t ih =>
    intro j
    cases i with
    | zero => cases j with
      | zero => simp [modifyIdx]
      | succ j2 => simp [modifyIdx]
    | succ i2 => cases j with
      | zero => simp [modifyIdx]
      | succ j2 => simpa [modifyIdx] using ih i2 j2

theorem mapIdxFrom_length (f : Nat → α → β) : ∀ (s : Nat) (l : List α),
    (mapIdxFrom f s l).length = l.length := by
  intro s l
  induction l generalizing s with
  | nil => rfl
  | cons a t ih => simpa [mapIdxFrom] using ih (s + 1)

theorem mapIdxFrom_getElem? (f : Nat → α → β) : ∀ (s : Nat) (l : List α) (j : Nat),
    (mapIdxFrom f s l)[j]? = (l[j]?).map (f (s + j)) := by
  intro s l
  induction l generalizing s with
  | nil => intro j; simp [mapIdxFrom]
  | cons a t ih =>
    intro j
    cases j with
    | zero => simp [mapIdxFrom]
    | succ j2 =>
      have := ih (s + 1) j2
      simpa [mapIdxFrom, Nat.add_assoc, Nat.add_comm 1 j2] using this

theorem countP_eq_one_pointwise (p : α → Bool) : ∀ (l : List α) (k : Nat),
    k < l.length → (∀ i x, l[i]? = some x → p x = (i == k)) → l.countP p = 1 := by
  intro l
  induction l with
  | nil => intro k hk; simp at hk
  | cons a t ih =>
    intro k hk h
    have h0 := h 0 a (by simp)
    cases k with
    | zero =>
      have hpa : p a = true := by simpa using h0
      have ht : t.countP p = 0 := by
        refine List.countP_eq_zero.2 ?_
        intro x hx
        obtain ⟨i, hi⟩ := List.mem_iff_getElem?.mp hx
        have := h (i + 1) x (by simpa using hi)
        simp at this
        simp [this]
      simp [List.countP_cons, hpa, ht]
    | succ k2 =>
      have hpa : p a = false := by simpa using h0
      have hk2 : k2 < t.length := by simpa using Nat.lt_of_succ_lt_succ hk
      have ih2 := ih k2 hk2 (fun i x hi => by
        have := h (i + 1) x (by simpa using hi)
        simpa using this)
      simp [List.countP_cons, hpa, ih2]

/-! ### Field-preservation lemmas for the tile update phases -/

theorem resizeStep_fields (it : PosterItem) :
    it.resizeStep.1.x = it.x ∧ it.resizeStep.1.y = it.y ∧ it.resizeStep.1.w = it.w ∧
    it.resizeStep.1.is_selected = it.is_selected ∧
    it.resizeStep.1.anim_scale = it.anim_scale ∧
    it.resizeStep.1.offset_x = it.offset_x ∧ it.resizeStep.1.offset_y = it.offset_y ∧
    it.resizeStep.1.prev_offset_x = it.prev_offset_x ∧
    it.resizeStep.1.prev_offset_y = it.prev_offset_y ∧
    it.resizeStep.1.buffer = it.buffer := by
  unfold PosterItem.resizeStep
  repeat' split
  all_goals simp

theorem resizeStep_no_fire (it : PosterItem) :
    it.resizeStep.2 = false → it.resizeStep.1 = it := by
  unfold PosterItem.resizeStep
  repeat' split
  all_goals simp

theorem offsetStep_fields (it : PosterItem) :
    it.offsetStep.1.x = it.x ∧ it.offsetStep.1.y = it.y ∧ it.offsetStep.1.w = it.w ∧
    it.offsetStep.1.h = it.h ∧ it.offsetStep.1.resize_contain = it.resize_contain ∧
    it.offsetStep.1.is_selected = it.is_selected ∧
    it.offsetStep.1.anim_scale = it.anim_scale ∧
    it.offsetStep.1.offset_x = it.offset_x ∧ it.offsetStep.1.offset_y = it.offset_y ∧
    it.offsetStep.1.buffer = it.buffer := by
  simp only [PosterItem.offsetStep]
  repeat' split
  all_goals simp

theorem offsetStep_no_fire (it : PosterItem) :
    it.offsetStep.2 = false → it.offsetStep.1 = it := by
  simp only [PosterItem.offsetStep]
  repeat' split
  all_goals simp

theorem offsetStep_post (it : PosterItem) :
    |it.offsetStep.1.offset_x - it.offsetStep.1.prev_offset_x| ≤ 1 / 10 ∧
    |it.offsetStep.1.offset_y - it.offsetStep.1.prev_offset_y| ≤ 1 / 10 ∧
    (it.offsetStep.1.prev_offset_x = it.prev_offset_x ∨
      it.offsetStep.1.prev_offset_x = it.offset_x) ∧
    (it.offsetStep.1.prev_offset_y = it.prev_offset_y ∨
      it.offsetStep.1.prev_offset_y = it.offset_y) := by
  simp only [PosterItem.offsetStep]
  repeat' split
  all_goals simp_all

theorem animStep_fields (it : PosterItem) :
    it.animStep.1.x = it.x ∧ it.animStep.1.y = it.y ∧ it.animStep.1.w = it.w ∧
    it.animStep.1.h = it.h ∧ it.animStep.1.resize_contain = it.resize_contain ∧
    it.animStep.1.is_selected = it.is_selected ∧
    it.animStep.1.offset_x = it.offset_x ∧ it.animStep.1.offset_y = it.offset_y ∧
    it.animStep.1.prev_offset_x = it.prev_offset_x ∧
    it.animStep.1.prev_offset_y = it.prev_offset_y ∧
    it.animStep.1.buffer = it.buffer := by
  simp only [PosterItem.animStep]
  repeat' split
  all_goals simp

theorem animStep_no_fire (it : PosterItem) :
    it.animStep.2 = false → it.animStep.1 = it := by
  simp only [PosterItem.animStep]
  repeat' split
  all_goals simp

/-- The uninterpolated fields of a tile are never touched by a tick. -/
theorem update_fields (it : PosterItem) :
    it.update.x = it.x ∧ it.update.y = it.y ∧ it.update.w = it.w ∧
    it.update.is_selected = it.is_selected ∧
    it.update.offset_x = it.offset_x ∧ it.update.offset_y = it.offset_y := by
  obtain ⟨r1x, r1y, r1w, r1sel, r1a, r1ox, r1oy, r1px, r1py, r1b⟩ :=
    resizeStep_fields it
  obtain ⟨r2x, r2y, r2w, r2h, r2rc, r2sel, r2a, r2ox, r2oy, r2b⟩ :=
    offsetStep_fields it.resizeStep.1
  obtain ⟨r3x, r3y, r3w, r3h, r3rc, r3sel, r3ox, r3oy, r3px, r3py, r3b⟩ :=
    animStep_fields it.resizeStep.1.offsetStep.1
  simp only [PosterItem.update]
  split
  case isTrue =>
    split
    all_goals simp_all
  case isFalse => simp_all

theorem update_is_selected (it : PosterItem) :
    it.update.is_selected = it.is_selected :=
  (update_fields it).2.2.2.1

/-! ### The shared interpolation pattern and its convergence properties -/

/-- The lerp-with-snap pattern shared by the three interpolation sites
(src/columnlist.rs:118-123, src/rowlist.rs:107-114, src/posteritem.rs:105-117):
move by `factor` of the remaining distance, snap exactly onto the target once
the remaining distance is within `thresh`. -/
def lerpSnap (factor thresh cur target : ℚ) : ℚ :=
  if |target - cur| > thresh then cur + (target - cur) * factor else target

/-- One interpolation step behaves well: the new value stays between the old
value and the target (no overshoot), the distance to the target strictly
shrinks away from the target (no oscillation), and within `thresh` the value
becomes exactly the target. -/
def movesToward (cur target new thresh : ℚ) : Prop :=
  (min cur target ≤ new ∧ new ≤ max cur target) ∧
  |target - new| ≤ |target - cur| ∧
  (cur ≠ target → |target - new| < |target - cur|) ∧
  (|target - cur| ≤ thresh → new = target)

theorem lerpSnap_movesToward (factor thresh cur target : ℚ)
    (h0 : 0 < factor) (h1 : factor < 1) (ht : 0 ≤ thresh) :
    movesToward cur target (lerpSnap factor thresh cur target) thresh := by
  unfold lerpSnap movesToward
  rcases le_or_lt |target - cur| thresh with hle | hgt
  · rw [if_neg (not_lt.2 hle)]
    refine ⟨⟨min_le_right _ _, le_max_right _ _⟩, by simp [abs_nonneg], ?_, fun _ => rfl⟩
    intro hne
    have : target - cur ≠ 0 := sub_ne_zero.2 (Ne.symm hne)
    simpa using abs_pos.2 this
  · rw [if_pos hgt]
    have hd : target - cur ≠ 0 := by
      intro h
      rw [h] at hgt
      simp at hgt
      linarith
    have habs : 0 < |target - cur| := abs_pos.2 hd
    have hkey : target - (cur + (target - cur) * factor) = (target - cur) * (1 - factor) := by
      ring
    have hdist : |target - (cur + (target - cur) * factor)| = |target - cur| * (1 - factor) := by
      rw [hkey, abs_mul, abs_of_pos (by linarith : (0:ℚ) < 1 - factor)]
    refine ⟨?_, ?_, ?_, ?_⟩
    · rcases le_total cur target with hct | htc
      · have hd0 : 0 ≤ target - cur := by linarith
        rw [min_eq_left hct, max_eq_right hct]
        constructor
        · nlinarith
        · nlinarith
      · have hd0 : target - cur ≤ 0 := by linarith
        rw [min_eq_right htc, max_eq_left htc]
        constructor
        · nlinarith
        · nlinarith
    · rw [hdist]; nlinarith
    · intro _; rw [hdist]; nlinarith
    · intro hcon; linarith

/-- The grid tick interpolates `scroll_y` by exactly this pattern
(src/columnlist.rs:118-123). -/
theorem update_scroll_y_eq (c : ColumnList) :
    (c.update).scroll_y = lerpSnap (1 / 10) (1 / 2) c.scroll_y c.target_scroll_y := rfl

/-- The lane tick interpolates `scroll_x` by exactly this pattern
(src/rowlist.rs:107-114). -/
theorem update_scroll_x_eq (r : RowList) :
    (r.update).scroll_x = lerpSnap (1 / 10) (1 / 2) r.scroll_x r.target_scroll_x := rfl

theorem animStep_anim (it : PosterItem) :
    it.animStep.1.anim_scale =
      lerpSnap (3 / 20) (1 / 1000) it.anim_scale (if it.is_selected then 6 / 5 else 1) := by
  simp only [PosterItem.animStep, lerpSnap]
  repeat' split
  all_goals simp_all

theorem update_anim_aux (it : PosterItem) :
    it.update.anim_scale = it.resizeStep.1.offsetStep.1.animStep.1.anim_scale := by
  simp only [PosterItem.update]
  split
  · split
    all_goals simp
  · rfl

/-- The tile tick interpolates `anim_scale` by exactly this pattern toward the
selection-driven target (src/posteritem.rs:105-117). -/
theorem update_anim_eq (p : PosterItem) :
    (p.update).anim_scale =
      lerpSnap (3 / 20) (1 / 1000) p.anim_scale (if p.is_selected then 6 / 5 else 1) := by
  obtain ⟨_, _, _, r1sel, r1a, _, _, _, _, _⟩ := resizeStep_fields p
  obtain ⟨_, _, _, _, _, r2sel, r2a, _, _, _⟩ := offsetStep_fields p.resizeStep.1
  rw [update_anim_aux, animStep_anim, r2a, r1a, r2sel, r1sel]

/-- C6: every interpolated value (grid `scroll_y` toward `target_scroll_y`,
lane `scroll_x` toward `target_scroll_x`, tile `anim_scale` toward its
selection target 1.2/1.0) moves monotonically toward its target on each tick,
never overshoots or oscillates, and is set exactly to the target once the
remaining distance is within the snap threshold (0.5 for the scrolls, 0.001
for the scale). -/
theorem c6_interpolation_monotone (c : ColumnList) (r : RowList) (p : PosterItem) :
    movesToward c.scroll_y c.target_scroll_y (c.update).scroll_y (1 / 2) ∧
    movesToward r.scroll_x r.target_scroll_x (r.update).scroll_x (1 / 2) ∧
    movesToward p.anim_scale (if p.is_selected then 6 / 5 else 1)
      (p.update).anim_scale (1 / 1000) := by
  refine ⟨?_, ?_, ?_⟩
  · rw [update_scroll_y_eq]
    exact lerpSnap_movesToward _ _ _ _ (by norm_num) (by norm_num) (by norm_num)
  · rw [update_scroll_x_eq]
    exact lerpSnap_movesToward _ _ _ _ (by norm_num) (by norm_num) (by norm_num)
  · rw [update_anim_eq]
    exact lerpSnap_movesToward _ _ _ _ (by norm_num) (by norm_num) (by norm_num)

/-- Witness for C6 at the freshly constructed grid, a fresh lane and a fresh
tile. -/
theorem c6_interpolation_monotone_witness :
    movesToward ColumnList.new.scroll_y ColumnList.new.target_scroll_y
      (ColumnList.new.update).scroll_y (1 / 2) ∧
    movesToward (RowList.new 50).scroll_x (RowList.new 50).target_scroll_x
      ((RowList.new 50).update).scroll_x (1 / 2) :=
  ⟨(c6_interpolation_monotone ColumnList.new (RowList.new 50)
      (PosterItem.new 0 0 0 0 ("s") true)).1,
   (c6_interpolation_monotone ColumnList.new (RowList.new 50)
      (PosterItem.new 0 0 0 0 ("s") true)).2.1⟩

/-- The vertical scroll target as a pure function of the active lane index
(src/columnlist.rs:100-112): 0 for index 0 or 1, otherwise
`-(index - 1) * 480`. -/
def scrollYTargetOf (i : Nat) : ℚ :=
  if i > 1 then -(((i - 1 : Nat) : ℚ) * 480) else 0

/-- C3: after any navigation input the grid's `target_scroll_y` equals the
pure function of the (new) `selected_row_index`: 0 when the index is 0 or 1,
and `-(index - 1) * 480` when the index exceeds 1 (`LANE_HEIGHT = 480`). -/
theorem c3_scroll_target_pure (c : ColumnList) (k : Nat) :
    (c.handle_input k).target_scroll_y =
      scrollYTargetOf (c.handle_input k).selected_row_index := rfl

/-- C4 counterexample: from the constructed 20x10 grid, five Down presses put
the active lane at index 5 but the vertical scroll target at
`-(5 - 1) * 480 = -1920`, not the claimed `-1440`. -/
theorem c4_counterexample :
    ¬ (runSteps ColumnList.new
        (List.replicate 5 (GridStep.key 40))).target_scroll_y = -1440 := by
  decide

/-- C4 amended: five Down presses from the constructed grid yield
`selected_row_index = 5` and `target_scroll_y = -1920` (with
`LANE_HEIGHT = 480`); six further Right presses on that lane yield
`selected_index = 6` and `target_scroll_x = -640` (with `TILE_PITCH = 320`). -/
theorem c4_navigation_endtoend :
    (runSteps ColumnList.new (List.replicate 5 (GridStep.key 40))).selected_row_index = 5 ∧
    (runSteps ColumnList.new (List.replicate 5 (GridStep.key 40))).target_scroll_y = -1920 ∧
    ((runSteps ColumnList.new (List.replicate 5 (GridStep.key 40) ++
        List.replicate 6 (GridStep.key 39))).rows[5]?).map
      (fun r => (r.selected_index, r.target_scroll_x)) = some ((6 : Nat), (-640 : ℚ)) := by
  refine ⟨by decide, by decide, by decide⟩

/-- C8: evaluating `RowList::handle_input` with Right (39) on an active empty
lane. The source computes `self.items.len() - 1` (src/rowlist.rs:66), which
underflows on an empty `Vec`: a debug build panics, a release build wraps to
`2^64 - 1`, so the guard passes and `selected_index` is incremented to 1 -
the input is not the no-op the specification requires. -/
theorem c8_empty_lane_eval :
    (({ items := [], selected_index := 0, is_active := true, scroll_x := 0,
        target_scroll_x := 0, offset_y := 0 } : RowList).handle_input 39).selected_index
      = 1 := by
  decide

/-! ### The selection invariant of the grid -/

/-- Master invariant: 20 lanes, in-range active lane index, the active flag
set exactly on the lane at `selected_row_index`, and every lane holding ten
tiles with an in-range `selected_index`. -/
def GridInv (c : ColumnList) : Prop :=
  c.rows.length = 20 ∧ c.selected_row_index < 20 ∧
  ∀ i r, c.rows[i]? = some r →
    ((r.is_active = true ↔ i = c.selected_row_index) ∧
     r.items.length = 10 ∧ r.selected_index < 10)

theorem rowNew_items_length (y : ℚ) : (RowList.new y).items.length = 10 := rfl

theorem rowHI_is_active (r : RowList) (k : Nat) :
    (r.handle_input k).is_active = r.is_active := by
  unfold RowList.handle_input
  split <;> rfl

theorem rowHI_items (r : RowList) (k : Nat) :
    (r.handle_input k).items = r.items := by
  unfold RowList.handle_input
  split <;> rfl

theorem rowHI_selected (r : RowList) (k : Nat) :
    (r.handle_input k).selected_index =
      if !r.is_active then r.selected_index
      else if k = 37 then
        (if r.selected_index > 0 then r.selected_index - 1 else r.selected_index)
      else if k = 39 then
        (if r.selected_index < usizePred r.items.length then r.selected_index + 1
         else r.selected_index)
      else r.selected_index := by
  unfold RowList.handle_input
  split <;> simp_all [RowList.retargetX]

theorem rowHI_selected_lt (r : RowList) (k : Nat) (h10 : r.items.length = 10)
    (hs : r.selected_index < 10) : (r.handle_input k).selected_index < 10 := by
  rw [rowHI_selected, h10, show usizePred 10 = 9 from by decide]
  split_ifs <;> omega

theorem inv_new : GridInv ColumnList.new := by
  refine ⟨?_, by decide, ?_⟩
  · rw [show ColumnList.new.rows =
        modifyIdx (fun r => { r with is_active := true }) 0
          ((List.range 20).map (fun (i : Nat) => RowList.new (50 + (i : ℚ) * 480))) from rfl,
      modifyIdx_length]
    simp
  intro i r h
  have hrows : ColumnList.new.rows =
      modifyIdx (fun r => { r with is_active := true }) 0
        ((List.range 20).map (fun (i : Nat) => RowList.new (50 + (i : ℚ) * 480))) := rfl
  rw [hrows, modifyIdx_getElem?, List.getElem?_map] at h
  have hsel : ColumnList.new.selected_row_index = 0 := rfl
  rw [hsel]
  by_cases hi : 0 = i
  · subst hi
    rw [if_pos rfl] at h
    rw [List.getElem?_range (by norm_num : 0 < 20)] at h
    simp only [Option.map_some'] at h
    obtain rfl := Option.some_inj.mp h.symm
    exact ⟨by simp, by simp [rowNew_items_length], by simp [RowList.new]⟩
  · rw [if_neg hi] at h
    rcases Nat.lt_or_ge i 20 with hlt | hge
    · rw [List.getElem?_range hlt, Option.map_some'] at h
      obtain rfl := Option.some_inj.mp h.symm
      refine ⟨?_, by simp [rowNew_items_length], by simp [RowList.new]⟩
      constructor
      · intro hact
        exact absurd hact (by simp [RowList.new])
      · intro hcon
        omega
    · rw [List.getElem?_eq_none (by simpa using hge)] at h
      simp at h

theorem inv_handle_input (c : ColumnList) (k : Nat) (h : GridInv c) :
    GridInv (c.handle_input k) := by
  obtain ⟨hlen, hidx, hpt⟩ := h
  show GridInv (ColumnList.retargetY _)
  have key : ∀ x : ColumnList, GridInv x → GridInv (ColumnList.retargetY x) := by
    intro x hx
    exact hx
  apply key
  split_ifs with h38 hup h40 hdown hlr
  · -- Up with room: deactivate the old row, activate the one above
    refine ⟨by simp [modifyIdx_length, hlen], by simp only []; omega, ?_⟩
    intro i r hr
    simp only [modifyIdx_getElem?] at hr
    simp only []
    by_cases hi1 : c.selected_row_index - 1 = i
    · rw [if_pos hi1] at hr
      by_cases hi2 : c.selected_row_index = i
      · omega
      · rw [if_neg hi2] at hr
        obtain ⟨r0, hr0, rfl⟩ := Option.map_eq_some'.mp hr
        obtain ⟨-, h10, hs⟩ := hpt i r0 hr0
        exact ⟨by simp [hi1.symm], h10, hs⟩
    · rw [if_neg hi1] at hr
      by_cases hi2 : c.selected_row_index = i
      · rw [if_pos hi2] at hr
        obtain ⟨r0, hr0, rfl⟩ := Option.map_eq_some'.mp hr
        obtain ⟨-, h10, hs⟩ := hpt i r0 hr0
        refine ⟨?_, h10, hs⟩
        constructor
        · intro hcon
          simp at hcon
        · intro hcon
          exact absurd hcon (by omega)
      · rw [if_neg hi2] at hr
        obtain ⟨hact, h10, hs⟩ := hpt i r hr
        refine ⟨?_, h10, hs⟩
        constructor
        · intro ha
          exact absurd (hact.mp ha) (by omega)
        · intro hcon
          exact absurd hcon (by omega)
  · -- Up at the top row: no-op
    exact ⟨hlen, hidx, hpt⟩
  · -- Down with room
    have h19 : usizePred c.rows.length = 19 := by rw [hlen]; decide
    rw [h19] at hdown
    refine ⟨by simp [modifyIdx_length, hlen], by simp only []; omega, ?_⟩
    intro i r hr
    simp only [modifyIdx_getElem?] at hr
    simp only []
    by_cases hi1 : c.selected_row_index + 1 = i
    · rw [if_pos hi1] at hr
      by_cases hi2 : c.selected_row_index = i
      · omega
      · rw [if_neg hi2] at hr
        obtain ⟨r0, hr0, rfl⟩ := Option.map_eq_some'.mp hr
        obtain ⟨-, h10, hs⟩ := hpt i r0 hr0
        exact ⟨by simp [hi1.symm], h10, hs⟩
    · rw [if_neg hi1] at hr
      by_cases hi2 : c.selected_row_index = i
      · rw [if_pos hi2] at hr
        obtain ⟨r0, hr0, rfl⟩ := Option.map_eq_some'.mp hr
        obtain ⟨-, h10, hs⟩ := hpt i r0 hr0
        refine ⟨?_, h10, hs⟩
        constructor
        · intro hcon
          simp at hcon
        · intro hcon
          exact absurd hcon (by omega)
      · rw [if_neg hi2] at hr
        obtain ⟨hact, h10, hs⟩ := hpt i r hr
        refine ⟨?_, h10, hs⟩
        constructor
        · intro ha
          exact absurd (hact.mp ha) (by omega)
        · intro hcon
          exact absurd hcon (by omega)
  · -- Down at the bottom row: no-op
    exact ⟨hlen, hidx, hpt⟩
  · -- Left/Right: delegate to the active row
    refine ⟨by simp [modifyIdx_length, hlen], hidx, ?_⟩
    intro i r hr
    simp only [modifyIdx_getElem?] at hr
    simp only []
    by_cases hi : c.selected_row_index = i
    · rw [if_pos hi] at hr
      obtain ⟨r0, hr0, rfl⟩ := Option.map_eq_some'.mp hr
      obtain ⟨hact, h10, hs⟩ := hpt i r0 hr0
      exact ⟨by rw [rowHI_is_active]; exact hact, by rw [rowHI_items]; exact h10,
        rowHI_selected_lt r0 k h10 hs⟩
    · rw [if_neg hi] at hr
      exact hpt i r hr
  · -- unrecognized key: no-op
    exact ⟨hlen, hidx, hpt⟩

theorem inv_update (c : ColumnList) (h : GridInv c) : GridInv c.update := by
  obtain ⟨hlen, hidx, hpt⟩ := h
  refine ⟨?_, hidx, ?_⟩
  · show (c.rows.map _).length = 20
    simpa using hlen
  · intro i r hr
    have hr2 : (c.rows.map
        (fun r => RowList.update { r with offset_y := (c.update).scroll_y }))[i]? = some r := hr
    rw [List.getElem?_map] at hr2
    obtain ⟨r0, hr0, rfl⟩ := Option.map_eq_some'.mp hr2
    obtain ⟨hact, h10, hs⟩ := hpt i r0 hr0
    refine ⟨hact, ?_, hs⟩
    show (mapIdxFrom _ 0 r0.items).length = 10
    rw [mapIdxFrom_length]
    exact h10

theorem inv_reachable {c : ColumnList} (h : Reachable c) : GridInv c := by
  induction h with
  | init => exact inv_new
  | input k _ ih => exact inv_handle_input _ k ih
  | tick _ ih => exact inv_update _ ih

/-- Bounds check of C2: the active lane index is inside the lane vector and
every lane's selected tile index is inside its tile vector. -/
def boundsOk (c : ColumnList) : Bool :=
  decide (c.selected_row_index < c.rows.length) &&
  c.rows.all (fun r => decide (r.selected_index < r.items.length))

/-- C2: for every sequence of navigation inputs (and frame ticks) applied
after construction, the grid's `selected_row_index` stays within
`[0, lane_count)` and every lane's `selected_index` stays within
`[0, tile_count)` for its (non-empty, ten-tile) tile list. -/
theorem c2_indices_in_range {c : ColumnList} (h : Reachable c) :
    boundsOk c = true := by
  obtain ⟨hlen, hidx, hpt⟩ := inv_reachable h
  unfold boundsOk
  simp only [Bool.and_eq_true, decide_eq_true_eq, List.all_eq_true]
  refine ⟨by omega, ?_⟩
  intro r hr
  obtain ⟨i, hi⟩ := List.mem_iff_getElem?.mp hr
  obtain ⟨-, h10, hs⟩ := hpt i r hi
  simp only [decide_eq_true_eq, h10]
  exact hs

/-- Witness for C2 after one Down press. -/
theorem c2_indices_in_range_witness :
    boundsOk (ColumnList.new.handle_input 40) = true :=
  c2_indices_in_range (Reachable.input 40 Reachable.init)

/-- Focus check of C1 on the lanes: exactly one lane has `is_active = true`
and it is the lane at `selected_row_index`. -/
def activeOk (c : ColumnList) : Bool :=
  (c.rows.countP (fun r => r.is_active) == 1) &&
  (match c.rows[c.selected_row_index]? with
   | some r => r.is_active
   | none => false)

/-- Focus check of C1 on the tiles, after a tick: within the active lane
exactly one tile has `is_selected = true` and it is the tile at
`selected_index`. -/
def tilesOk (c : ColumnList) : Bool :=
  match (c.update).rows[(c.update).selected_row_index]? with
  | some r =>
    (r.items.countP (fun it => it.is_selected) == 1) &&
    (match r.items[r.selected_index]? with
     | some t => t.is_selected
     | none => false)
  | none => false

/-- C1: at every reachable state exactly one lane is active and it is the lane
at `selected_row_index`; and after a tick the active lane has exactly one
selected tile, the one at its `selected_index`. -/
theorem c1_unique_focus {c : ColumnList} (h : Reachable c) :
    activeOk c = true ∧ tilesOk c = true := by
  obtain ⟨hlen, hidx, hpt⟩ := inv_reachable h
  have hs20 : c.selected_row_index < c.rows.length := by omega
  obtain ⟨r0, hr0⟩ : ∃ r0, c.rows[c.selected_row_index]? = some r0 := by
    rw [List.getElem?_eq_getElem hs20]
    exact ⟨_, rfl⟩
  obtain ⟨hact0, h10, hsel0⟩ := hpt c.selected_row_index r0 hr0
  constructor
  · -- lane part
    unfold activeOk
    rw [hr0]
    have hcount : c.rows.countP (fun r => r.is_active) = 1 := by
      refine countP_eq_one_pointwise _ c.rows c.selected_row_index hs20 ?_
      intro i r hi
      obtain ⟨hact, -, -⟩ := hpt i r hi
      by_cases hia : r.is_active
      · have := hact.mp hia
        simp [hia, this]
      · have : ¬ i = c.selected_row_index := fun hcon => hia (hact.mpr hcon)
        simp [hia, this]
    simp [hcount, hact0.mpr rfl]
  · -- tile part, after one tick
    unfold tilesOk
    have hselu : (c.update).selected_row_index = c.selected_row_index := rfl
    have hrowsu : (c.update).rows =
        c.rows.map (fun r => RowList.update { r with offset_y := (c.update).scroll_y }) := rfl
    have hru : (c.update).rows[(c.update).selected_row_index]? =
        some (RowList.update { r0 with offset_y := (c.update).scroll_y }) := by
      rw [hselu, hrowsu, List.getElem?_map, hr0, Option.map_some']
    simp only [hru]
    set r1 := RowList.update { r0 with offset_y := (c.update).scroll_y } with hr1
    have hitems : r1.items = mapIdxFrom (fun i it =>
        PosterItem.update
          { it with is_selected := r0.is_active && (i == r0.selected_index),
                    offset_x := r1.scroll_x, offset_y := (c.update).scroll_y }) 0 r0.items := rfl
    have hsel1 : r1.selected_index = r0.selected_index := rfl
    have hpt1 : ∀ j t, r1.items[j]? = some t → t.is_selected = (j == r0.selected_index) := by
      intro j t ht
      rw [hitems, mapIdxFrom_getElem?] at ht
      obtain ⟨t0, ht0, rfl⟩ := Option.map_eq_some'.mp ht
      rw [update_is_selected]
      simp only [Nat.zero_add]
      rw [hact0.mpr rfl]
      simp
    have hlen1 : r1.items.length = 10 := by
      rw [hitems, mapIdxFrom_length]
      exact h10
    have hcount1 : r1.items.countP (fun it => it.is_selected) = 1 := by
      refine countP_eq_one_pointwise _ r1.items r0.selected_index (by omega) ?_
      intro j t ht
      simpa using hpt1 j t ht
    obtain ⟨t0, ht0⟩ : ∃ t0, r1.items[r1.selected_index]? = some t0 := by
      rw [List.getElem?_eq_getElem (by omega : r1.selected_index < r1.items.length)]
      exact ⟨_, rfl⟩
    have := hpt1 r1.selected_index t0 ht0
    rw [hsel1] at this
    simp [hcount1, ht0, this]

/-- Witness for C1 after one Down press. -/
theorem c1_unique_focus_witness :
    activeOk (ColumnList.new.handle_input 40) = true ∧
    tilesOk (ColumnList.new.handle_input 40) = true :=
  c1_unique_focus (Reachable.input 40 Reachable.init)

/-! ### The texture cache: sharing and single-load guarantees -/

/-- A client session against the texture cache: each call supplies the key and
whether the context can allocate a texture; the trace records, per call, the
returned shared-record id (or `none` when allocation failed). -/
def runGets (tm : TextureManager) :
    List (String × Bool) → (List (String × Option Nat) × TextureManager)
  | [] => ([], tm)
  | (src, canCreate) :: rest =>
    match tm.get_texture canCreate src with
    | Except.ok (id, tm1) =>
      let r := runGets tm1 rest
      ((src, some id) :: r.1, r.2)
    | Except.error _ =>
      let r := runGets tm rest
      ((src, none) :: r.1, r.2)

/-- Cache-state invariant: a load has been initiated for a key exactly when
the key is cached, and never more than once. -/
def TMInv (tm : TextureManager) : Prop :=
  ∀ k, tm.loads.count k = (if (lookupKey k tm.cache).isSome then 1 else 0)

theorem get_texture_cases (tm : TextureManager) (cc : Bool) (src : String) :
    (∃ id, lookupKey src tm.cache = some id ∧
      tm.get_texture cc src = Except.ok (id, tm)) ∨
    (lookupKey src tm.cache = none ∧ cc = true ∧
      tm.get_texture cc src = Except.ok (tm.nextId,
        { cache := (src, tm.nextId) :: tm.cache, nextId := tm.nextId + 1,
          loads := src :: tm.loads })) ∨
    (lookupKey src tm.cache = none ∧ cc = false ∧
      tm.get_texture cc src = Except.error ("failed to create texture")) := by
  unfold TextureManager.get_texture
  cases hl : lookupKey src tm.cache with
  | some id => exact Or.inl ⟨id, rfl, rfl⟩
  | none =>
    cases cc with
    | true => exact Or.inr (Or.inl ⟨rfl, rfl, rfl⟩)
    | false => exact Or.inr (Or.inr ⟨rfl, rfl, rfl⟩)

theorem runGets_spec (calls : List (String × Bool)) : ∀ (tm : TextureManager),
    TMInv tm →
    TMInv (runGets tm calls).2 ∧
    (∀ k id, lookupKey k tm.cache = some id →
      lookupKey k (runGets tm calls).2.cache = some id) ∧
    (∀ k id, (k, some id) ∈ (runGets tm calls).1 →
      lookupKey k (runGets tm calls).2.cache = some id) := by
  induction calls with
  | nil =>
    intro tm hinv
    exact ⟨hinv, fun k id h => h, fun k id h => by simp [runGets] at h⟩
  | cons call rest ih =>
    intro tm hinv
    obtain ⟨src, cc⟩ := call
    rcases get_texture_cases tm cc src with
      ⟨id0, hl, hg⟩ | ⟨hl, hcc, hg⟩ | ⟨hl, hcc, hg⟩
    · -- cache hit: state unchanged, the cached id is returned
      have hrun : runGets tm ((src, cc) :: rest) =
          ((src, some id0) :: (runGets tm rest).1, (runGets tm rest).2) := by
        simp only [runGets, hg]
      obtain ⟨ih1, ih2, ih3⟩ := ih tm hinv
      rw [hrun]
      refine ⟨ih1, ih2, ?_⟩
      intro k id hmem
      rcases List.mem_cons.mp hmem with heq | hmem2
      · injection heq with hk hid
        subst hk
        obtain rfl := Option.some_inj.mp hid
        exact ih2 _ _ hl
      · exact ih3 k id hmem2
    · -- cache miss with successful allocation: the load is initiated once
      subst hcc
      set tm1 : TextureManager :=
        { cache := (src, tm.nextId) :: tm.cache, nextId := tm.nextId + 1,
          loads := src :: tm.loads } with htm1
      have hinv1 : TMInv tm1 := by
        intro k
        by_cases hk : k = src
        · subst hk
          have h0 : tm.loads.count k = 0 := by
            have := hinv k
            rw [hl] at this
            simpa using this
          simp [htm1, List.count_cons, h0, lookupKey]
        · have hsk : ¬ src = k := fun hcon => hk hcon.symm
          have := hinv k
          simp [htm1, List.count_cons, lookupKey, hk, hsk, this]
      have hrun : runGets tm ((src, true) :: rest) =
          ((src, some tm.nextId) :: (runGets tm1 rest).1, (runGets tm1 rest).2) := by
        simp only [runGets, hg]
      obtain ⟨ih1, ih2, ih3⟩ := ih tm1 hinv1
      rw [hrun]
      have hmono : ∀ k id, lookupKey k tm.cache = some id →
          lookupKey k tm1.cache = some id := by
        intro k id h
        have hk : ¬ k = src := fun hcon => by
          rw [hcon, hl] at h
          exact Option.noConfusion h
        simp [htm1, lookupKey, hk]
        exact h
      refine ⟨ih1, fun k id h => ih2 k id (hmono k id h), ?_⟩
      intro k id hmem
      rcases List.mem_cons.mp hmem with heq | hmem2
      · have hk : k = src := congrArg Prod.fst heq
        have hid : some id = some tm.nextId := congrArg Prod.snd heq
        obtain rfl := Option.some_inj.mp hid
        subst hk
        refine ih2 k tm.nextId ?_
        simp [htm1, lookupKey]
      · exact ih3 k id hmem2
    · -- cache miss with failed allocation: nothing changes, no load registered
      subst hcc
      have hrun : runGets tm ((src, false) :: rest) =
          ((src, none) :: (runGets tm rest).1, (runGets tm rest).2) := by
        simp only [runGets, hg]
      obtain ⟨ih1, ih2, ih3⟩ := ih tm hinv
      rw [hrun]
      refine ⟨ih1, ih2, ?_⟩
      intro k id hmem
      rcases List.mem_cons.mp hmem with heq | hmem2
      · have : (some id : Option Nat) = none := congrArg Prod.snd heq
        exact Option.noConfusion this
      · exact ih3 k id hmem2

/-- C5: over any sequence of `get_texture` calls from a fresh cache, every two
successful calls with the same key return the same shared-record id (reference
identity of the cached `SharedTexture`, whatever the load-completion state),
and at most one asynchronous load is ever initiated per distinct key. -/
theorem c5_cache_dedup (calls : List (String × Bool)) (k : String) :
    (∀ id1 id2, (k, some id1) ∈ (runGets TextureManager.new calls).1 →
      (k, some id2) ∈ (runGets TextureManager.new calls).1 → id1 = id2) ∧
    (runGets TextureManager.new calls).2.loads.count k ≤ 1 := by
  have hinv0 : TMInv TextureManager.new := by
    intro k2
    simp [TextureManager.new, lookupKey]
  obtain ⟨hinv, -, hres⟩ := runGets_spec calls TextureManager.new hinv0
  constructor
  · intro id1 id2 h1 h2
    have e1 := hres k id1 h1
    have e2 := hres k id2 h2
    rw [e1] at e2
    exact Option.some_inj.mp e2
  · rw [hinv k]
    split <;> omega

/-- Witness for C5: two gets of the same poster source initiate one load. -/
theorem c5_cache_dedup_witness :
    (runGets TextureManager.new
      [(srcEven, true), (srcEven, true)]).2.loads.count srcEven ≤ 1 :=
  (c5_cache_dedup [(srcEven, true), (srcEven, true)] srcEven).2

/-! ### Aspect-fit resolution -/

theorem resizeStep_of_off (it : PosterItem) (h : it.resize_contain = false) :
    it.resizeStep = (it, false) := by
  simp [PosterItem.resizeStep, h]

theorem update_h_rc (it : PosterItem) :
    it.update.h = it.resizeStep.1.h ∧
    it.update.resize_contain = it.resizeStep.1.resize_contain := by
  obtain ⟨-, -, -, r2h, r2rc, -, -, -, -, -⟩ := offsetStep_fields it.resizeStep.1
  obtain ⟨-, -, -, r3h, r3rc, -, -, -, -, -, -⟩ :=
    animStep_fields it.resizeStep.1.offsetStep.1
  simp only [PosterItem.update]
  split
  · split
    all_goals simp_all
  · simp_all

theorem update_preserves_done (p : PosterItem) (hrc : p.resize_contain = false) :
    p.update.h = p.h ∧ p.update.resize_contain = false := by
  obtain ⟨hh, hr⟩ := update_h_rc p
  rw [resizeStep_of_off p hrc] at hh hr
  exact ⟨hh, hr ▸ hrc⟩

theorem iterate_preserves_done : ∀ (n : Nat) (p : PosterItem),
    p.resize_contain = false →
    (iterate PosterItem.update n p).h = p.h ∧
    (iterate PosterItem.update n p).resize_contain = false := by
  intro n
  induction n with
  | zero => intro p h; exact ⟨rfl, h⟩
  | succ m ih =>
    intro p h
    obtain ⟨h1, h2⟩ := update_preserves_done p h
    obtain ⟨h3, h4⟩ := ih p.update h2
    exact ⟨by rw [show iterate PosterItem.update (m + 1) p =
      iterate PosterItem.update m p.update from rfl, h3, h1], by
      rw [show iterate PosterItem.update (m + 1) p =
        iterate PosterItem.update m p.update from rfl]
      exact h4⟩

/-- C7 counterexample: a tile with `resize_contain` pending, width 300 and
height already exactly 150 whose image reports natural size 600x300. The
recomputed height differs from the current one by at most 0.01, so the source
(src/posteritem.rs:85-89) never applies it and never clears the flag:
`aspect_fit_pending` stays true forever, contradicting the claim that it
becomes false once the natural size is known. -/
theorem c7_counterexample :
    (({ PosterItem.new 50 50 300 150 srcEven true with
        image_element := some (600, 300) } : PosterItem).update).resize_contain
      = true := by
  decide

/-- C7 amended: a tile with `resize_contain` pending and width 300 whose image
reports natural size 600x300, and whose current height differs from 150 by
more than the 0.01 tolerance (as the constructed 300x200 tiles do), snaps to
height 150 on the next tick and clears `resize_contain` permanently; all
further ticks leave the height at 150 and the flag cleared, so the aspect-fit
step fires at most once. -/
theorem c7_aspect_fit (it : PosterItem) (n : Nat)
    (hrc : it.resize_contain = true) (hw : it.w = 300)
    (himg : it.image_element = some (600, 300))
    (hh : |it.h - 150| > 1 / 100) :
    (it.update).h = 150 ∧ (it.update).resize_contain = false ∧
    (iterate PosterItem.update n it.update).h = 150 ∧
    (iterate PosterItem.update n it.update).resize_contain = false := by
  have hcalc : it.w * ((300 : ℚ) / 600) = 150 := by
    rw [hw]
    norm_num
  have hfire : it.resizeStep =
      ({ it with h := it.w * ((300 : ℚ) / 600), resize_contain := false }, true) := by
    unfold PosterItem.resizeStep
    rw [hrc, himg]
    simp only [if_true]
    rw [if_pos (by norm_num : (600 : ℚ) > 0 ∧ (300 : ℚ) > 0)]
    rw [if_pos (by rw [hcalc]; exact hh)]
  obtain ⟨hhu, hrcu⟩ := update_h_rc it
  rw [hfire] at hhu hrcu
  simp only [] at hhu hrcu
  rw [hcalc] at hhu
  obtain ⟨hit3, hit4⟩ := iterate_preserves_done n it.update hrcu
  exact ⟨hhu, hrcu, by rw [hit3, hhu], hit4⟩

/-- Witness for C7 at the constructed 300x200 tile once its image reports
600x300: three further ticks keep the height at 150 and the flag cleared. -/
theorem c7_aspect_fit_witness :
    (({ PosterItem.new 50 50 300 200 srcEven true with
        image_element := some (600, 300) } : PosterItem).update).h = 150 ∧
    (({ PosterItem.new 50 50 300 200 srcEven true with
        image_element := some (600, 300) } : PosterItem).update).resize_contain = false ∧
    (iterate PosterItem.update 3
      (({ PosterItem.new 50 50 300 200 srcEven true with
          image_element := some (600, 300) } : PosterItem).update)).h = 150 ∧
    (iterate PosterItem.update 3
      (({ PosterItem.new 50 50 300 200 srcEven true with
          image_element := some (600, 300) } : PosterItem).update)).resize_contain = false :=
  c7_aspect_fit _ 3 (by decide) (by decide) (by decide) (by decide)

/-! ### Construction-time allocation failures -/

/-- Whether a fallible initialization step succeeded. -/
def exceptOk {α : Type} : Except String α → Bool
  | Except.ok _ => true
  | Except.error _ => false

/-- C9 counterexample: with vertex-buffer allocation failing and texture
allocation succeeding, `load_assets` on the constructed grid still returns
`Ok`: `RowList::load_assets` catches the `init_buffer` error with
`unwrap_or_else` (src/rowlist.rs:95-97), logs it and carries on, so the engine
starts partially initialized instead of failing. -/
theorem c9_counterexample :
    exceptOk (ColumnList.new.load_assets false true TextureManager.new) = true := by
  decide

/-- C9 amended: `init_buffer` itself does fail when the buffer cannot be
allocated, and a texture-allocation failure does propagate out of
`load_assets` (which then fails); but a buffer-allocation failure is swallowed
inside `RowList::load_assets`, so `load_assets` succeeds exactly when texture
allocation succeeds, regardless of buffer allocation. -/
theorem c9_allocation_failures (cb ct : Bool) (it : PosterItem) :
    exceptOk (ColumnList.new.load_assets cb ct TextureManager.new) = ct ∧
    it.init_buffer false = Except.error ("Failed to create buffer") := by
  constructor
  · cases cb <;> cases ct <;> decide
  · rfl

/-! ### Dirty-tracking and the drawn geometry -/

/-- The quad a tile's buffer would hold if it had been uploaded with offsets
`(ax, ay)` and the tile's current position, size and scale. -/
def create_rectAt (it : PosterItem) (ax ay : ℚ) : List ℚ :=
  PosterItem.create_rect { it with offset_x := ax, offset_y := ay }

/-- Buffer coherence invariant: the buffer holds the quad for the tile's
current `x, y, w, h, anim_scale` and for offsets recorded at the last upload,
each within the 0.1 dirty-tracking tolerance of the tracked previous offset,
as are the current offsets. -/
def ItemBufferInv (it : PosterItem) : Prop :=
  ∃ ax ay, it.buffer = some (create_rectAt it ax ay) ∧
    |ax - it.prev_offset_x| ≤ 1 / 10 ∧ |ay - it.prev_offset_y| ≤ 1 / 10 ∧
    |it.offset_x - it.prev_offset_x| ≤ 1 / 10 ∧
    |it.offset_y - it.prev_offset_y| ≤ 1 / 10

theorem offsetStep_no_fire_bounds (it : PosterItem) (h : it.offsetStep.2 = false) :
    |it.offset_x - it.prev_offset_x| ≤ 1 / 10 ∧
    |it.offset_y - it.prev_offset_y| ≤ 1 / 10 := by
  revert h
  simp only [PosterItem.offsetStep]
  split_ifs with h1 h2 <;> intro h <;> simp_all

theorem create_rectAt_push (it : PosterItem) (b : Bool) (sx oy ax ay : ℚ) :
    create_rectAt { it with is_selected := b, offset_x := sx, offset_y := oy } ax ay =
      create_rectAt it ax ay := rfl

theorem itemInv_step (it : PosterItem) (b : Bool) (sx oy : ℚ)
    (h : ItemBufferInv it) :
    ItemBufferInv (PosterItem.update
      { it with is_selected := b, offset_x := sx, offset_y := oy }) := by
  obtain ⟨ax, ay, hbuf, hax, hay, -, -⟩ := h
  set it1 : PosterItem := { it with is_selected := b, offset_x := sx, offset_y := oy }
    with hit1
  obtain ⟨e1x, e1y, e1w, e1sel, e1a, e1ox, e1oy, e1px, e1py, e1b⟩ := resizeStep_fields it1
  obtain ⟨e2x, e2y, e2w, e2h, e2rc, e2sel, e2a, e2ox, e2oy, e2b⟩ :=
    offsetStep_fields it1.resizeStep.1
  obtain ⟨p2ox, p2oy, p2dx, p2dy⟩ := offsetStep_post it1.resizeStep.1
  obtain ⟨e3x, e3y, e3w, e3h, e3rc, e3sel, e3ox, e3oy, e3px, e3py, e3b⟩ :=
    animStep_fields it1.resizeStep.1.offsetStep.1
  simp only [PosterItem.update]
  split
  case isTrue hcond =>
    -- something fired: phase D re-uploads the quad at the current state
    have hbuf3 : it1.resizeStep.1.offsetStep.1.animStep.1.buffer =
        some (create_rectAt it ax ay) := by
      rw [e3b, e2b, e1b]
      exact hbuf
    split
    case h_1 val heq =>
      refine ⟨it1.resizeStep.1.offsetStep.1.animStep.1.offset_x,
        it1.resizeStep.1.offsetStep.1.animStep.1.offset_y, ?_, ?_, ?_, ?_, ?_⟩
      · simp only []
        congr 1
      · simp only []
        rw [e3ox, e3px]
        exact p2ox
      · simp only []
        rw [e3oy, e3py]
        exact p2oy
      · simp only []
        rw [e3ox, e3px]
        exact p2ox
      · simp only []
        rw [e3oy, e3py]
        exact p2oy
    case h_2 heq =>
      rw [hbuf3] at heq
      exact Option.noConfusion heq
  case isFalse hcond =>
    -- nothing fired: every phase is the identity and the buffer is untouched
    have hcond2 := Bool.eq_false_iff.mpr hcond
    simp only [Bool.or_eq_false_iff] at hcond2
    obtain ⟨⟨hu1, hu2⟩, hu3⟩ := hcond2
    have hA : it1.resizeStep.1 = it1 := resizeStep_no_fire it1 hu1
    have hB : it1.resizeStep.1.offsetStep.1 = it1 := by
      rw [hA]
      exact offsetStep_no_fire it1 (by rw [hA] at hu2; exact hu2)
    have hC : it1.resizeStep.1.offsetStep.1.animStep.1 = it1 := by
      rw [hB]
      exact animStep_no_fire it1 (by rw [hB] at hu3; exact hu3)
    rw [hC]
    have hbounds := offsetStep_no_fire_bounds it1 (by rw [hA] at hu2; exact hu2)
    refine ⟨ax, ay, ?_, ?_, ?_, hbounds.1, hbounds.2⟩
    · rw [show it1.buffer = it.buffer from rfl, hbuf]
      rfl
    · rw [show it1.prev_offset_x = it.prev_offset_x from rfl]
      exact hax
    · rw [show it1.prev_offset_y = it.prev_offset_y from rfl]
      exact hay

/-- Every tile of every lane satisfies the buffer coherence invariant. -/
def AllItems (c : ColumnList) : Prop :=
  ∀ (i j : Nat) (r : RowList) (it : PosterItem),
    c.rows[i]? = some r → r.items[j]? = some it → ItemBufferInv it

theorem modifyIdx_items_pointwise (f : RowList → RowList)
    (hf : ∀ r, (f r).items = r.items) (n : Nat) (l : List RowList) :
    ∀ (i : Nat) (r : RowList), (modifyIdx f n l)[i]? = some r →
      ∃ (r0 : RowList), l[i]? = some r0 ∧ r.items = r0.items := by
  intro i r hr
  rw [modifyIdx_getElem?] at hr
  by_cases hn : n = i
  · rw [if_pos hn] at hr
    obtain ⟨r0, h0, rfl⟩ := Option.map_eq_some'.mp hr
    exact ⟨r0, h0, hf r0⟩
  · rw [if_neg hn] at hr
    exact ⟨r, hr, rfl⟩

theorem handle_input_rows_items (c : ColumnList) (k : Nat) :
    ∀ (i : Nat) (r : RowList), (c.handle_input k).rows[i]? = some r →
      ∃ (r0 : RowList), c.rows[i]? = some r0 ∧ r.items = r0.items := by
  show ∀ (i : Nat) (r : RowList), (ColumnList.retargetY _).rows[i]? = some r → _
  have key : ∀ x : ColumnList,
      (∀ (i : Nat) (r : RowList), x.rows[i]? = some r →
        ∃ (r0 : RowList), c.rows[i]? = some r0 ∧ r.items = r0.items) →
      (∀ (i : Nat) (r : RowList), (ColumnList.retargetY x).rows[i]? = some r →
        ∃ (r0 : RowList), c.rows[i]? = some r0 ∧ r.items = r0.items) := by
    intro x hx
    exact hx
  apply key
  split_ifs with h38 hup h40 hdown hlr
  · intro i r hr
    simp only [] at hr
    obtain ⟨r1, hr1, hi1⟩ := modifyIdx_items_pointwise
      (fun r => { r with is_active := true }) (fun r => rfl) _ _ i r hr
    obtain ⟨r0, hr0, hi0⟩ := modifyIdx_items_pointwise
      (fun r => { r with is_active := false }) (fun r => rfl) _ _ i r1 hr1
    exact ⟨r0, hr0, by rw [hi1, hi0]⟩
  · intro i r hr
    exact ⟨r, hr, rfl⟩
  · intro i r hr
    simp only [] at hr
    obtain ⟨r1, hr1, hi1⟩ := modifyIdx_items_pointwise
      (fun r => { r with is_active := true }) (fun r => rfl) _ _ i r hr
    obtain ⟨r0, hr0, hi0⟩ := modifyIdx_items_pointwise
      (fun r => { r with is_active := false }) (fun r => rfl) _ _ i r1 hr1
    exact ⟨r0, hr0, by rw [hi1, hi0]⟩
  · intro i r hr
    exact ⟨r, hr, rfl⟩
  · intro i r hr
    simp only [] at hr
    obtain ⟨r0, hr0, hi0⟩ := modifyIdx_items_pointwise _ (fun r => rowHI_items r k) _ _ i r hr
    exact ⟨r0, hr0, hi0⟩
  · intro i r hr
    exact ⟨r, hr, rfl⟩

theorem allItems_handle_input (c : ColumnList) (k : Nat) (h : AllItems c) :
    AllItems (c.handle_input k) := by
  intro i j r it hr hit
  obtain ⟨r0, hr0, hitems⟩ := handle_input_rows_items c k i r hr
  rw [hitems] at hit
  exact h i j r0 it hr0 hit

theorem allItems_update (c : ColumnList) (h : AllItems c) : AllItems c.update := by
  intro i j r it hr hit
  have hr2 : (c.rows.map
      (fun r => RowList.update { r with offset_y := (c.update).scroll_y }))[i]? = some r := hr
  rw [List.getElem?_map] at hr2
  obtain ⟨r0, hr0, rfl⟩ := Option.map_eq_some'.mp hr2
  have hit2 : (mapIdxFrom (fun p itm =>
      PosterItem.update
        { itm with is_selected := r0.is_active && (p == r0.selected_index),
                   offset_x := (RowList.update
                     { r0 with offset_y := (c.update).scroll_y }).scroll_x,
                   offset_y := (c.update).scroll_y }) 0 r0.items)[j]? = some it := hit
  rw [mapIdxFrom_getElem?] at hit2
  obtain ⟨it0, hit0, rfl⟩ := Option.map_eq_some'.mp hit2
  exact itemInv_step it0 _ _ _ (h i j r0 it0 hr0 hit0)

theorem allItems_runSteps (steps : List GridStep) : ∀ c : ColumnList,
    AllItems c → AllItems (runSteps c steps) := by
  induction steps with
  | nil => intro c h; exact h
  | cons s rest ih =>
    intro c h
    cases s with
    | key k => exact ih _ (allItems_handle_input c k h)
    | tick => exact ih _ (allItems_update c h)

/-- Decidable form of the initial buffer coherence: the buffer holds exactly
the quad of the current state and the recorded previous offsets equal the
current ones (which is what `init_buffer` establishes). -/
def itemInit (it : PosterItem) : Bool :=
  (it.buffer == some it.create_rect) &&
  (it.prev_offset_x == it.offset_x) && (it.prev_offset_y == it.offset_y)

theorem itemInit_sound (it : PosterItem) (h : itemInit it = true) :
    ItemBufferInv it := by
  simp only [itemInit, Bool.and_eq_true, beq_iff_eq] at h
  obtain ⟨⟨hbuf, hpx⟩, hpy⟩ := h
  refine ⟨it.offset_x, it.offset_y, ?_, ?_, ?_, ?_, ?_⟩
  · rw [hbuf]
    rfl
  · rw [hpx]
    simp
  · rw [hpy]
    simp
  · rw [hpx]
    simp
  · rw [hpy]
    simp

def allItemsB (c : ColumnList) : Bool :=
  c.rows.all (fun r => r.items.all itemInit)

theorem allItemsB_sound (c : ColumnList) (h : allItemsB c = true) : AllItems c := by
  intro i j r it hr hit
  simp only [allItemsB, List.all_eq_true] at h
  have hrmem : r ∈ c.rows := List.mem_iff_getElem?.mpr ⟨i, hr⟩
  have hitmem : it ∈ r.items := List.mem_iff_getElem?.mpr ⟨j, hit⟩
  exact itemInit_sound it (h r hrmem it hitmem)

theorem loadedGrid_allItemsB : allItemsB loadedGrid = true := by
  decide

/-- C10 amended: at every state reachable from the loaded grid by inputs and
ticks, every tile's buffer holds exactly the quad computed by `create_rect`
from the tile's current `x, y, w, h, anim_scale` and from offsets recorded at
the last upload; those recorded offsets can lag the current `offset_x` /
`offset_y` by up to 0.2 units (twice the 0.1 dirty-tracking tolerance of
src/posteritem.rs:95-103), so the drawn quad need not equal `create_rect` of
the fully current state. -/
theorem c10_draw_refinement (steps : List GridStep) (i j : Nat) (r : RowList)
    (it : PosterItem) (hr : (runSteps loadedGrid steps).rows[i]? = some r)
    (hit : r.items[j]? = some it) :
    ∃ ax ay, it.buffer = some (create_rectAt it ax ay) ∧
      |it.offset_x - ax| ≤ 1 / 5 ∧ |it.offset_y - ay| ≤ 1 / 5 := by
  have hA := allItems_runSteps steps loadedGrid (allItemsB_sound _ loadedGrid_allItemsB)
  obtain ⟨ax, ay, hbuf, hax, hay, hox, hoy⟩ := hA i j r it hr hit
  refine ⟨ax, ay, hbuf, ?_, ?_⟩
  · calc |it.offset_x - ax|
        ≤ |it.offset_x - it.prev_offset_x| + |it.prev_offset_x - ax| :=
          abs_sub_le _ _ _
      _ ≤ 1 / 10 + 1 / 10 := by
          rw [abs_sub_comm it.prev_offset_x ax]
          exact add_le_add hox hax
      _ = 1 / 5 := by norm_num
  · calc |it.offset_y - ay|
        ≤ |it.offset_y - it.prev_offset_y| + |it.prev_offset_y - ay| :=
          abs_sub_le _ _ _
      _ ≤ 1 / 10 + 1 / 10 := by
          rw [abs_sub_comm it.prev_offset_y ay]
          exact add_le_add hoy hay
      _ = 1 / 5 := by norm_num

/-- The first lane of the loaded grid and its first tile, used as concrete
instances. -/
def lane0 : RowList := (loadedGrid.rows[0]?).getD (RowList.new 0)

def tile00 : PosterItem := (lane0.items[0]?).getD (PosterItem.new 0 0 0 0 ("w") true)

/-- Witness for C10 amended at the loaded grid itself (empty step list). -/
theorem c10_draw_refinement_witness :
    ∃ ax ay, tile00.buffer = some (create_rectAt tile00 ax ay) ∧
      |tile00.offset_x - ax| ≤ 1 / 5 ∧ |tile00.offset_y - ay| ≤ 1 / 5 :=
  c10_draw_refinement [] 0 0 lane0 tile00 (by decide) (by decide)

/-- Five Right presses (scroll target -320 on lane 0) followed by 56 ticks:
at the 56th tick the lane's scroll moves by less than the 0.1 dirty-tracking
tolerance, so the tile buffer is not re-uploaded. -/
def c10trace : List GridStep :=
  List.replicate 5 (GridStep.key 39) ++ List.replicate 56 GridStep.tick

def c10item : Option PosterItem :=
  ((runSteps loadedGrid c10trace).rows[0]?).bind (fun r => r.items[0]?)

/-- C10 counterexample: after five Right presses and 56 ticks from the loaded
grid - a trace ending in a tick - the first tile of lane 0 has a buffer whose
content differs from `create_rect` of its current state: the 56th tick moved
`offset_x` by about 0.097 (less than the 0.1 tolerance), so the upload was
elided and the drawn geometry lags the current offsets. The observable draw
output is therefore not identical to the always-upload semantics. -/
theorem c10_counterexample :
    ∃ it, c10item = some it ∧ ¬ it.buffer = some it.create_rect := by
  have h : (c10item.map (fun it => decide (it.buffer = some it.create_rect)))
      = some false := by decide
  obtain ⟨it, hit, hdec⟩ := Option.map_eq_some'.mp h
  exact ⟨it, hit, of_decide_eq_false hdec⟩
